import Mathlib

/-!
Shallow embedding of the OMG backend (src/app.py): a FastAPI service over a
MongoDB document store with guest/user creation, catalog reads, a
single-world-record-per-game leaderboard and a capped top-50 tournament
leaderboard.

Modelling conventions:
* MongoDB collections are Lean lists in insertion (natural) order.
  find_one returns the first match, update_one updates the first match,
  insert_one appends, delete_many filters; sort("score", -1) is a stable
  descending sort (stability models natural-order iteration on ties).
* ObjectId values are abstracted as Nat.  Identifier fields arriving over
  HTTP are modelled as the outcome of parsing: missing key (KeyError),
  malformed id (bson InvalidId), or a parsed value.  Likewise int(score).
* datetime.utcnow() is passed in as an explicit Nat parameter.
* python dict responses are modelled by an explicit Json type; endpoint
  functions return the (possibly updated) store together with either a
  Json success body or an error: an HTTPException (code, detail) or an
  unhandled exception (which FastAPI surfaces as a 500 server error).
-/

/-- JSON values, used for the response bodies the endpoints build. -/
inductive Json where
  | null : Json
  | bool (b : Bool) : Json
  | num (n : Int) : Json
  | dbl (q : Rat) : Json
  | str (s : String) : Json
  | arr (xs : List Json) : Json
  | obj (fs : List (String × Json)) : Json

/-- How an endpoint invocation can fail: a raised HTTPException with status
code and detail, or an exception that no handler catches (FastAPI then
answers with a generic 500 server error). -/
inductive Err where
  | http (code : Nat) (detail : String) : Err
  | unhandled : Err
deriving DecidableEq

/-- Abstraction of a bson ObjectId. -/
abbrev Oid := Nat

/-- An identifier field of a JSON payload dict, as seen after the code's
parsing attempt: the key may be absent (KeyError), present but not a valid
ObjectId string (bson InvalidId), or parse to an id. -/
inductive IdIn where
  | missing : IdIn
  | malformed : IdIn
  | valid (o : Oid) : IdIn
deriving DecidableEq

/-- A score field of a JSON payload dict: absent key (KeyError), a value
int() cannot parse (ValueError), or an integer (of either sign). -/
inductive ScoreIn where
  | missing : ScoreIn
  | nonNumeric : ScoreIn
  | num (n : Int) : ScoreIn
deriving DecidableEq

/-- The user_id query parameter of GET /api/user_details: absent, present
but the empty string (both falsy in python), a malformed ObjectId string,
or a well-formed id. -/
inductive UserIdParam where
  | missing : UserIdParam
  | emptyStr : UserIdParam
  | malformed : UserIdParam
  | valid (o : Oid) : UserIdParam
deriving DecidableEq

/-- A document of the users collection.  Field names mirror the keys the
code writes: generate_guest writes is_guest/created_at/balance while
create_user writes username/createdAt/isGuest; absent keys are none. -/
structure UserDoc where
  id : Oid
  username : Option String
  is_guest : Option Bool
  isGuest : Option Bool
  balance : Option Rat
  created_at : Option Nat
  createdAt : Option Nat
deriving DecidableEq

/-- A document of the games collection (the fields the code projects). -/
structure GameDoc where
  id : Int
  name : String
  bundle_url : String
  category_names : List String
  image_url : String
  LastUpdate : Option String
deriving DecidableEq

/-- A document of the category collection. -/
structure CatDoc where
  id : Int
  name : String
  createdAt : Option Nat
deriving DecidableEq

/-- A document of the world_records collection. -/
structure WRDoc where
  gameId : Oid
  userId : Oid
  score : Int
  updatedAt : Nat
deriving DecidableEq

/-- A document of the tournaments collection. -/
structure TournDoc where
  id : Oid
  name : String
  gameName : String
  prizes : Json
  weekType : String

/-- A document of the tournament_scores collection, with its store-assigned
_id. -/
structure TSDoc where
  id : Nat
  tournamentId : Oid
  userId : Oid
  username : String
  score : Int
deriving DecidableEq

/-- The document store: one list per collection, in insertion order,
plus counters supplying the store-generated _id values. -/
structure Store where
  users : List UserDoc
  games : List GameDoc
  category : List CatDoc
  bundles : List Json
  world_records : List WRDoc
  tournaments : List TournDoc
  tournament_scores : List TSDoc
  nextUserId : Nat
  nextTsId : Nat

/-- The store with every collection empty. -/
def emptyStore : Store := ⟨[], [], [], [], [], [], [], 0, 0⟩

/-- Abstraction of str(ObjectId): an injective rendering of the id. -/
def oidStr (o : Oid) : String := toString o

/-- Abstraction of datetime.isoformat(): an injective rendering. -/
def isoformat (t : Nat) : String := toString t

/-- Abstraction of jwt.encode in create_access_token: an opaque token
derived from the user id. -/
def create_access_token (user_id : Oid) : String :=
  String.append "jwt:" (toString user_id)

/-- Executable model of python str.strip(): drop leading and trailing
whitespace characters. -/
def pyStrip (s : String) : String :=
  String.mk (((s.data.dropWhile Char.isWhitespace).reverse.dropWhile Char.isWhitespace).reverse)

/-- Evaluate an identifier payload field the way the code's
ObjectId(payload[...]) line does: both a missing key and a malformed id
raise an exception no handler catches. -/
def parseId : IdIn → Except Err Oid
  | IdIn.missing => Except.error Err.unhandled
  | IdIn.malformed => Except.error Err.unhandled
  | IdIn.valid o => Except.ok o

/-- Evaluate a score payload field the way int(payload["score"]) does:
a missing key or a non-numeric value raises an uncaught exception. -/
def parseScore : ScoreIn → Except Err Int
  | ScoreIn.missing => Except.error Err.unhandled
  | ScoreIn.nonNumeric => Except.error Err.unhandled
  | ScoreIn.num n => Except.ok n

/-- POST /api/generate_guest: insert a guest user document and answer with
a token and the new id. -/
def generate_guest (t : Nat) (s : Store) : Store × Except Err Json :=
  let user_id := s.nextUserId
  ({s with
      users := s.users ++ [⟨user_id, none, some true, none, some 0, some t, none⟩],
      nextUserId := s.nextUserId + 1},
   Except.ok (Json.obj [("status", Json.bool true),
     ("token", Json.str (create_access_token user_id)),
     ("userId", Json.str (oidStr user_id))]))

/-- Body of the try block of GET /api/user_details: parse succeeded, look
the user up; a missing user raises HTTPException(404). -/
def user_details_try (o : Oid) (s : Store) : Except Err Json :=
  match s.users.find? (fun u => u.id == o) with
  | none => Except.error (Err.http 404 "User not found")
  | some u =>
      Except.ok (Json.obj [("status", Json.bool true),
        ("userId", Json.str (oidStr u.id)),
        ("balance", Json.dbl (u.balance.getD 0)),
        ("is_guest", Json.bool (u.is_guest.getD false))])

/-- GET /api/user_details.  The whole body after the falsy check sits in a
try whose except-Exception clause replaces ANY exception - including the
HTTPException(404) raised for an absent user - with HTTPException(400,
"Invalid user_id"). -/
def user_details (user_id : UserIdParam) (s : Store) : Store × Except Err Json :=
  match user_id with
  | UserIdParam.missing => (s, Except.error (Err.http 400 "user_id parameter is required"))
  | UserIdParam.emptyStr => (s, Except.error (Err.http 400 "user_id parameter is required"))
  | UserIdParam.malformed => (s, Except.error (Err.http 400 "Invalid user_id"))
  | UserIdParam.valid o =>
      match user_details_try o s with
      | Except.ok j => (s, Except.ok j)
      | Except.error _ => (s, Except.error (Err.http 400 "Invalid user_id"))

/-- Raw serialization of a category document minus _id, as returned by
GET /api/get_game_details. -/
def catJson (c : CatDoc) : Json :=
  Json.obj ([("id", Json.num c.id), ("name", Json.str c.name)] ++
    (match c.createdAt with
     | some t => [("createdAt", Json.str (isoformat t))]
     | none => []))

/-- Serialization of a game document as the code projects it. -/
def gameJson (g : GameDoc) : Json :=
  Json.obj [("id", Json.num g.id), ("name", Json.str g.name),
    ("bundle_url", Json.str g.bundle_url),
    ("category_names", Json.arr (g.category_names.map Json.str)),
    ("image_url", Json.str g.image_url),
    ("LastUpdate", match g.LastUpdate with | some u => Json.str u | none => Json.null)]

/-- GET /api/get_game_details: read-only projection of three collections. -/
def get_game_details (s : Store) : Store × Except Err Json :=
  (s, Except.ok (Json.obj [("status", Json.bool true),
    ("categories", Json.arr (s.category.map catJson)),
    ("bundles", Json.arr s.bundles),
    ("games", Json.arr (s.games.map gameJson))]))

/-- One entry of the GET /api/get_categories response.  The code runs
cat.get("createdAt", "").isoformat(); when createdAt is absent the empty
string has no isoformat attribute, so an AttributeError is raised (and
caught by the endpoint's except clause). -/
def categoryEntry (c : CatDoc) : Except Err Json :=
  match c.createdAt with
  | some t => Except.ok (Json.obj [("id", Json.num c.id), ("name", Json.str c.name),
      ("createdAt", Json.str (isoformat t))])
  | none => Except.error Err.unhandled

/-- GET /api/get_categories: any exception inside the try is converted to
HTTPException(500, "Failed to fetch categories"). -/
def get_categories (s : Store) : Store × Except Err Json :=
  match s.category.mapM categoryEntry with
  | Except.ok xs => (s, Except.ok (Json.obj [("status", Json.bool true), ("data", Json.arr xs)]))
  | Except.error _ => (s, Except.error (Err.http 500 "Failed to fetch categories"))

/-- GET /api/games: returns the projected game list itself - a bare JSON
array, not an object. -/
def get_all_games (s : Store) : Store × Except Err Json :=
  (s, Except.ok (Json.arr (s.games.map gameJson)))

/-- POST /api/user/create: reject a username that strips to empty,
otherwise insert a document with keys username/createdAt/isGuest (note:
key isGuest, not is_guest, and no balance key). -/
def create_user (username : String) (t : Nat) (s : Store) : Store × Except Err Json :=
  if pyStrip username = "" then
    (s, Except.error (Err.http 400 "Username required"))
  else
    ({s with
        users := s.users ++ [⟨s.nextUserId, some (pyStrip username), none, some true, none, none, some t⟩],
        nextUserId := s.nextUserId + 1},
     Except.ok (Json.obj [("status", Json.bool true),
       ("userId", Json.str (oidStr s.nextUserId)),
       ("username", Json.str username)]))

/-- update_one({"gameId": game_id}, {$set: {userId, score, updatedAt}},
upsert=True): update the first document matching the gameId filter; when
none matches, insert a document assembled from the filter equality and the
$set fields. -/
def upsertWR (g u : Oid) (n : Int) (t : Nat) : List WRDoc → List WRDoc
  | [] => [⟨g, u, n, t⟩]
  | d :: ds =>
      if d.gameId == g then {d with userId := u, score := n, updatedAt := t} :: ds
      else d :: upsertWR g u n t ds

/-- The payload dict of POST /api/world-record/submit. -/
structure WRPayload where
  userId : IdIn
  gameId : IdIn
  score : ScoreIn
deriving DecidableEq

/-- POST /api/world-record/submit. -/
def submit_world_record (p : WRPayload) (t : Nat) (s : Store) : Store × Except Err Json :=
  match parseId p.userId with
  | Except.error e => (s, Except.error e)
  | Except.ok user_id =>
  match parseId p.gameId with
  | Except.error e => (s, Except.error e)
  | Except.ok game_id =>
  match parseScore p.score with
  | Except.error e => (s, Except.error e)
  | Except.ok score =>
  let record := s.world_records.find? (fun d => d.gameId == game_id)
  if (match record with
      | none => true
      | some r => decide (r.score < score)) then
    ({s with world_records := upsertWR game_id user_id score t s.world_records},
     Except.ok (Json.obj [("status", Json.bool true), ("newWorldRecord", Json.bool true)]))
  else
    (s, Except.ok (Json.obj [("status", Json.bool true), ("newWorldRecord", Json.bool false)]))

/-- The descending-by-score comparison of sort("score", -1). -/
def scoreDesc (a b : TSDoc) : Prop := b.score ≤ a.score

instance decScoreDesc : DecidableRel scoreDesc :=
  fun a b => inferInstanceAs (Decidable (b.score ≤ a.score))

instance totalScoreDesc : IsTotal TSDoc scoreDesc :=
  ⟨fun a b => le_total b.score a.score⟩

instance transScoreDesc : IsTrans TSDoc scoreDesc :=
  ⟨fun _ _ _ h1 h2 => le_trans h2 h1⟩

/-- Stable descending sort by score, modelling find(...).sort("score", -1)
with natural-order iteration on ties. -/
def sortByScoreDesc (l : List TSDoc) : List TSDoc :=
  l.insertionSort scoreDesc

/-- update_one({"_id": i}, {$set: {"score": n}}): set the score of the
first document whose _id matches. -/
def update_one_score (i : Nat) (n : Int) : List TSDoc → List TSDoc
  | [] => []
  | d :: ds =>
      if d.id == i then {d with score := n} :: ds
      else d :: update_one_score i n ds

/-- The store mutation of the admitted branch of submit_tournament_score:
insert_one the new document, re-read the sorted per-tournament list,
skip(50), and delete_many the documents whose _id lies beyond rank 50
(the code skips the delete when nothing overflows). -/
def insertAndTrim (T : Oid) (newDoc : TSDoc) (l : List TSDoc) : List TSDoc :=
  let ts1 := l ++ [newDoc]
  let overflow := (sortByScoreDesc (ts1.filter (fun d => d.tournamentId == T))).drop 50
  let ids_to_delete := overflow.map (fun d => d.id)
  if ids_to_delete.isEmpty then ts1
  else ts1.filter (fun d => !(decide (d.id ∈ ids_to_delete)))

/-- The payload dict of POST /api/tournament/submit; username is read by
plain key access, so an absent key raises KeyError. -/
structure TSPayload where
  tournamentId : IdIn
  userId : IdIn
  username : Option String
  score : ScoreIn

/-- POST /api/tournament/submit. -/
def submit_tournament_score (p : TSPayload) (s : Store) : Store × Except Err Json :=
  match parseId p.tournamentId with
  | Except.error e => (s, Except.error e)
  | Except.ok tournament_id =>
  match parseId p.userId with
  | Except.error e => (s, Except.error e)
  | Except.ok user_id =>
  match p.username with
  | none => (s, Except.error Err.unhandled)
  | some username =>
  match parseScore p.score with
  | Except.error e => (s, Except.error e)
  | Except.ok score =>
  let scores := sortByScoreDesc (s.tournament_scores.filter (fun d => d.tournamentId == tournament_id))
  match scores.find? (fun d => d.userId == user_id) with
  | some existing =>
      if existing.score < score then
        ({s with tournament_scores := update_one_score existing.id score s.tournament_scores},
         Except.ok (Json.obj [("status", Json.bool true)]))
      else
        (s, Except.ok (Json.obj [("status", Json.bool true)]))
  | none =>
      if decide (scores.length < 50) ||
         (match scores.getLast? with
          | some last => decide (last.score < score)
          | none => false) then
        ({s with
            tournament_scores := insertAndTrim tournament_id
              ⟨s.nextTsId, tournament_id, user_id, username, score⟩ s.tournament_scores,
            nextTsId := s.nextTsId + 1},
         Except.ok (Json.obj [("status", Json.bool true), ("qualified", Json.bool true)]))
      else
        (s, Except.ok (Json.obj [("status", Json.bool true),
          ("qualified", Json.bool false), ("approxRank", Json.str ">50")]))

/-- The leaderboard block built by GET /api/tournament/data: ranks 1..N in
descending score order. -/
def leaderboardJson (lb : List TSDoc) : Json :=
  Json.arr (lb.enum.map (fun p =>
    Json.obj [("rank", Json.num ((p.1 : Int) + 1)),
      ("username", Json.str p.2.username),
      ("score", Json.num p.2.score)]))

/-- The per-tournament data dict of GET /api/tournament/data. -/
def tournamentData (s : Store) (t : TournDoc) : Json :=
  let leaderboard := (sortByScoreDesc (s.tournament_scores.filter (fun d => d.tournamentId == t.id))).take 50
  Json.obj [("tournamentId", Json.str (oidStr t.id)),
    ("tournamentName", Json.str t.name),
    ("gameName", Json.str t.gameName),
    ("prizes", t.prizes),
    ("leaderboard", leaderboardJson leaderboard)]

/-- GET /api/tournament/data: bucket each tournament into current/last by
weekType; later documents with the same weekType overwrite earlier ones. -/
def get_tournament_data (s : Store) : Store × Except Err Json :=
  let response := s.tournaments.foldl (fun response t =>
    let data := tournamentData s t
    if t.weekType == "current" then (data, response.2)
    else if t.weekType == "last" then (response.1, data)
    else response) (Json.null, Json.null)
  (s, Except.ok (Json.obj [("status", Json.bool true),
    ("data", Json.obj [("current", response.1), ("last", response.2)])]))

/-- Projection of a world-record document by GET /api/world-records. -/
def worldRecordJson (r : WRDoc) : Json :=
  Json.obj [("gameId", Json.str (oidStr r.gameId)), ("score", Json.num r.score)]

/-- GET /api/world-records. -/
def get_all_world_records (s : Store) : Store × Except Err Json :=
  (s, Except.ok (Json.obj [("status", Json.bool true),
    ("data", Json.arr (s.world_records.map worldRecordJson))]))

/-! ### Derived views of the store used by the specification -/

/-- The world-record documents stored for one game. -/
def wrFor (g : Oid) (s : Store) : List WRDoc :=
  s.world_records.filter (fun d => d.gameId == g)

/-- The tournament-score documents stored for one tournament. -/
def tsFor (T : Oid) (s : Store) : List TSDoc :=
  s.tournament_scores.filter (fun d => d.tournamentId == T)

/-- Well-formedness the store counters guarantee for tournament scores:
_id values are pairwise distinct and below the counter. -/
def WFts (s : Store) : Prop :=
  (s.tournament_scores.map (fun d => d.id)).Nodup ∧
  ∀ d ∈ s.tournament_scores, d.id < s.nextTsId

/-- Well-formedness of the users collection: ids below the counter. -/
def WFusers (s : Store) : Prop :=
  ∀ u ∈ s.users, u.id < s.nextUserId

/-- Sequentially run a list of world-record submissions (userId, score,
time) for a fixed game. -/
def runWR (g : Oid) (subs : List (Oid × Int × Nat)) (s : Store) : Store :=
  subs.foldl (fun s x =>
    (submit_world_record ⟨IdIn.valid x.1, IdIn.valid g, ScoreIn.num x.2.1⟩ x.2.2 s).1) s

/-- Sequentially run a list of tournament submissions (userId, username,
score) for a fixed tournament. -/
def runTS (T : Oid) (subs : List (Oid × String × Int)) (s : Store) : Store :=
  subs.foldl (fun s x =>
    (submit_tournament_score ⟨IdIn.valid T, IdIn.valid x.1, some x.2.1, ScoreIn.num x.2.2⟩ s).1) s

/-- A JSON value that is an object carrying a boolean status field. -/
def includesBoolStatus : Json → Prop
  | Json.obj fs => ∃ b, ("status", Json.bool b) ∈ fs
  | _ => False

/-- An endpoint outcome whose successful body (if any) carries a boolean
status field. -/
def resultHasStatus : Except Err Json → Prop
  | Except.ok j => includesBoolStatus j
  | Except.error _ => True

/-! ### Generic list lemmas -/

/-- A predicate with no member satisfying it finds nothing. -/
theorem find?_of_filter_eq_nil {α} {p : α → Bool} {l : List α}
    (h : l.filter p = []) : l.find? p = none :=
  List.find?_eq_none.mpr (fun x hx => List.filter_eq_nil_iff.mp h x hx)

/-- When filtering leaves exactly one element, find? returns it. -/
theorem find?_of_filter_single {α} {p : α → Bool} {l : List α} {r : α}
    (h : l.filter p = [r]) : l.find? p = some r := by
  induction l with
  | nil => simp at h
  | cons d ds ih =>
      by_cases hd : p d
      · rw [List.filter_cons_of_pos hd] at h
        rw [List.find?_cons_of_pos _ hd, ((List.cons.injEq _ _ _ _).mp h).1]
      · rw [List.filter_cons_of_neg hd] at h
        rw [List.find?_cons_of_neg _ hd]
        exact ih h

/-- Appending one element to a list where nothing matches. -/
theorem find?_append_single {α} {p : α → Bool} {l : List α} (d : α)
    (h : l.find? p = none) :
    (l ++ [d]).find? p = if p d then some d else none := by
  rw [List.find?_append, h]
  cases hpd : p d <;> simp [List.find?, hpd]

/-- The last element of a list sorted descending by score is a lower bound
for every member. -/
theorem sorted_getLast?_le {l : List TSDoc} (hs : List.Sorted scoreDesc l)
    {z : TSDoc} (hz : l.getLast? = some z) :
    ∀ x ∈ l, z.score ≤ x.score := by
  induction l with
  | nil => simp at hz
  | cons a t ih =>
      intro x hx
      cases t with
      | nil =>
          simp at hz
          rcases List.mem_singleton.mp hx with rfl
          simp [hz]
      | cons b t2 =>
          rw [List.getLast?_cons_cons] at hz
          rcases List.mem_cons.mp hx with rfl | hx2
          · have hzmem : z ∈ b :: t2 := List.mem_of_getLast?_eq_some hz
            exact (List.rel_of_sorted_cons hs) z hzmem
          · exact ih hs.of_cons hz x hx2

/-! ### World-record collection lemmas -/

/-- After the upsert, the first document found for the game is exactly the
freshly written one. -/
theorem find?_upsertWR (g u : Oid) (n : Int) (t : Nat) :
    ∀ l : List WRDoc,
      (upsertWR g u n t l).find? (fun d => d.gameId == g) = some ⟨g, u, n, t⟩ := by
  intro l
  induction l with
  | nil => simp [upsertWR, List.find?]
  | cons d ds ih =>
      by_cases hd : d.gameId = g
      · subst hd
        simp [upsertWR, List.find?]
      · have hdb : (d.gameId == g) = false := by simpa using hd
        simp only [upsertWR, hdb, Bool.false_eq_true, if_false]
        rw [List.find?_cons_of_neg _ (by simp [hdb])]
        exact ih

/-- Upserting into a collection holding at most one document for the game
leaves exactly one document for it: the freshly written one. -/
theorem filter_upsertWR (g u : Oid) (n : Int) (t : Nat) :
    ∀ l : List WRDoc, (l.filter (fun d => d.gameId == g)).length ≤ 1 →
      (upsertWR g u n t l).filter (fun d => d.gameId == g) = [⟨g, u, n, t⟩] := by
  intro l
  induction l with
  | nil => intro _; simp [upsertWR]
  | cons d ds ih =>
      intro h
      by_cases hd : d.gameId = g
      · subst hd
        have hds : ds.filter (fun x => x.gameId == d.gameId) = [] := by
          rw [List.filter_cons_of_pos (by simp)] at h
          have h0 : (ds.filter (fun x => x.gameId == d.gameId)).length = 0 := by
            simp only [List.length_cons] at h; omega
          exact List.length_eq_zero.mp h0
        simp [upsertWR, List.filter_cons_of_pos, hds]
      · have hdb : (d.gameId == g) = false := by simpa using hd
        rw [List.filter_cons_of_neg (by simp [hdb])] at h
        simp only [upsertWR, hdb, Bool.false_eq_true, if_false]
        rw [List.filter_cons_of_neg (by simp [hdb])]
        exact ih h

/-! ### World-record claims -/

/-- Claim C1: submitWorldRecord upserts the document (with this gameId,
userId, score and the current timestamp) and reports a new record exactly
when no record exists for the game or the score strictly beats the stored
one; otherwise (ties included) the store is unchanged and it reports
isNewRecord = false. -/
theorem world_record_submit_correct (u g : Oid) (n : Int) (t : Nat) (s : Store) :
    ((s.world_records.find? (fun d => d.gameId == g) = none ∨
      (∃ r0, s.world_records.find? (fun d => d.gameId == g) = some r0 ∧ r0.score < n)) →
      (submit_world_record ⟨IdIn.valid u, IdIn.valid g, ScoreIn.num n⟩ t s).1
          = {s with world_records := upsertWR g u n t s.world_records} ∧
      ((submit_world_record ⟨IdIn.valid u, IdIn.valid g, ScoreIn.num n⟩ t s).1.world_records.find?
          (fun d => d.gameId == g)) = some ⟨g, u, n, t⟩ ∧
      (submit_world_record ⟨IdIn.valid u, IdIn.valid g, ScoreIn.num n⟩ t s).2
          = Except.ok (Json.obj [("status", Json.bool true), ("newWorldRecord", Json.bool true)])) ∧
    ((∃ r0, s.world_records.find? (fun d => d.gameId == g) = some r0 ∧ n ≤ r0.score) →
      (submit_world_record ⟨IdIn.valid u, IdIn.valid g, ScoreIn.num n⟩ t s).1 = s ∧
      (submit_world_record ⟨IdIn.valid u, IdIn.valid g, ScoreIn.num n⟩ t s).2
          = Except.ok (Json.obj [("status", Json.bool true), ("newWorldRecord", Json.bool false)])) := by
  constructor
  · rintro (hnone | ⟨r0, hr0, hlt⟩)
    · simp [submit_world_record, parseId, parseScore, hnone, find?_upsertWR]
    · simp [submit_world_record, parseId, parseScore, hr0, hlt, find?_upsertWR]
  · rintro ⟨r0, hr0, hle⟩
    simp [submit_world_record, parseId, parseScore, hr0, not_lt.mpr hle]

/-- Concrete instantiation of world_record_submit_correct. -/
theorem world_record_submit_correct_wit :
    (submit_world_record ⟨IdIn.valid 1, IdIn.valid 2, ScoreIn.num 5⟩ 0 emptyStore).1
        = {emptyStore with world_records := upsertWR 2 1 5 0 emptyStore.world_records} ∧
    ((submit_world_record ⟨IdIn.valid 1, IdIn.valid 2, ScoreIn.num 5⟩ 0 emptyStore).1.world_records.find?
        (fun d => d.gameId == 2)) = some ⟨2, 1, 5, 0⟩ ∧
    (submit_world_record ⟨IdIn.valid 1, IdIn.valid 2, ScoreIn.num 5⟩ 0 emptyStore).2
        = Except.ok (Json.obj [("status", Json.bool true), ("newWorldRecord", Json.bool true)]) :=
  (world_record_submit_correct 1 2 5 0 emptyStore).1 (Or.inl rfl)

/-- From a state holding exactly one record for the game, a submission
sequence leaves exactly one record, whose score is the running maximum. -/
theorem runWR_from_single (g : Oid) :
    ∀ (subs : List (Oid × Int × Nat)) (s : Store) (r0 : WRDoc),
      wrFor g s = [r0] →
      ∃ r, wrFor g (runWR g subs s) = [r] ∧
        (r.score = r0.score ∨ r.score ∈ subs.map (fun x => x.2.1)) ∧
        r0.score ≤ r.score ∧
        ∀ m ∈ subs.map (fun x => x.2.1), m ≤ r.score := by
  intro subs
  induction subs with
  | nil => intro s r0 h; exact ⟨r0, h, Or.inl rfl, le_refl _, by simp⟩
  | cons x xs ih =>
      intro s r0 h
      have hfind : s.world_records.find? (fun d => d.gameId == g) = some r0 :=
        find?_of_filter_single h
      have hlen : (s.world_records.filter (fun d => d.gameId == g)).length ≤ 1 := by
        rw [show s.world_records.filter (fun d => d.gameId == g) = [r0] from h]
        simp
      by_cases hlt : r0.score < x.2.1
      · have hstep : (submit_world_record ⟨IdIn.valid x.1, IdIn.valid g, ScoreIn.num x.2.1⟩ x.2.2 s).1
            = {s with world_records := upsertWR g x.1 x.2.1 x.2.2 s.world_records} := by
          simp [submit_world_record, parseId, parseScore, hfind, hlt]
        have hnew : wrFor g ((submit_world_record ⟨IdIn.valid x.1, IdIn.valid g, ScoreIn.num x.2.1⟩ x.2.2 s).1)
            = [⟨g, x.1, x.2.1, x.2.2⟩] := by
          rw [hstep]
          exact filter_upsertWR g x.1 x.2.1 x.2.2 s.world_records hlen
        obtain ⟨r, hr, hmem, hle, hbound⟩ := ih _ _ hnew
        refine ⟨r, ?_, ?_, ?_, ?_⟩
        · simpa [runWR] using hr
        · rcases hmem with hm | hm
          · refine Or.inr ?_
            rw [List.map_cons, hm]
            exact List.mem_cons_self _ _
          · refine Or.inr ?_
            rw [List.map_cons]
            exact List.mem_cons_of_mem _ hm
        · exact le_trans (le_of_lt hlt) hle
        · intro m hm
          rw [List.map_cons] at hm
          rcases List.mem_cons.mp hm with rfl | hm2
          · exact hle
          · exact hbound m hm2
      · have hstep : (submit_world_record ⟨IdIn.valid x.1, IdIn.valid g, ScoreIn.num x.2.1⟩ x.2.2 s).1 = s := by
          simp [submit_world_record, parseId, parseScore, hfind, hlt]
        have h2 : wrFor g ((submit_world_record ⟨IdIn.valid x.1, IdIn.valid g, ScoreIn.num x.2.1⟩ x.2.2 s).1) = [r0] := by
          rw [hstep]; exact h
        obtain ⟨r, hr, hmem, hle, hbound⟩ := ih _ _ h2
        refine ⟨r, ?_, ?_, hle, ?_⟩
        · simpa [runWR] using hr
        · rcases hmem with hm | hm
          · exact Or.inl hm
          · refine Or.inr ?_
            rw [List.map_cons]
            exact List.mem_cons_of_mem _ hm
        · intro m hm
          rw [List.map_cons] at hm
          rcases List.mem_cons.mp hm with rfl | hm2
          · exact le_trans (not_lt.mp hlt) hle
          · exact hbound m hm2

/-- Claim C2: starting with no record for the game, after a nonempty
submission sequence exactly one record exists for the game and its score
is the maximum score ever submitted; a submission tying the stored record
leaves the store completely unchanged (incumbent userId and timestamp
kept). -/
theorem world_record_sequence_max (g : Oid) (subs : List (Oid × Int × Nat)) (s0 : Store)
    (h0 : wrFor g s0 = []) (hne : subs ≠ []) :
    (∃ r, wrFor g (runWR g subs s0) = [r] ∧
       r.score ∈ subs.map (fun x => x.2.1) ∧
       ∀ m ∈ subs.map (fun x => x.2.1), m ≤ r.score) ∧
    ∀ (s : Store) (r : WRDoc) (u : Oid) (t : Nat), wrFor g s = [r] →
      (submit_world_record ⟨IdIn.valid u, IdIn.valid g, ScoreIn.num r.score⟩ t s).1 = s := by
  constructor
  · cases subs with
    | nil => exact absurd rfl hne
    | cons x xs =>
        have hfind : s0.world_records.find? (fun d => d.gameId == g) = none :=
          find?_of_filter_eq_nil h0
        have hstep : (submit_world_record ⟨IdIn.valid x.1, IdIn.valid g, ScoreIn.num x.2.1⟩ x.2.2 s0).1
            = {s0 with world_records := upsertWR g x.1 x.2.1 x.2.2 s0.world_records} := by
          simp [submit_world_record, parseId, parseScore, hfind]
        have hone : wrFor g ((submit_world_record ⟨IdIn.valid x.1, IdIn.valid g, ScoreIn.num x.2.1⟩ x.2.2 s0).1)
            = [⟨g, x.1, x.2.1, x.2.2⟩] := by
          rw [hstep]
          refine filter_upsertWR g x.1 x.2.1 x.2.2 s0.world_records ?_
          rw [show s0.world_records.filter (fun d => d.gameId == g) = [] from h0]
          simp
        obtain ⟨r, hr, hmem, hle, hbound⟩ := runWR_from_single g xs _ _ hone
        refine ⟨r, by simpa [runWR] using hr, ?_, ?_⟩
        · rcases hmem with hm | hm
          · rw [List.map_cons, hm]
            exact List.mem_cons_self _ _
          · rw [List.map_cons]
            exact List.mem_cons_of_mem _ hm
        · intro m hm
          rw [List.map_cons] at hm
          rcases List.mem_cons.mp hm with rfl | hm2
          · exact hle
          · exact hbound m hm2
  · intro s r u t h
    have hfind : s.world_records.find? (fun d => d.gameId == g) = some r :=
      find?_of_filter_single h
    simp [submit_world_record, parseId, parseScore, hfind]

/-- Concrete instantiation of world_record_sequence_max: two submissions
of 100 for game 7; the stored score is the maximum and the tie clause
holds. -/
theorem world_record_sequence_max_wit :
    (∃ r, wrFor 7 (runWR 7 [(1, 100, 0), (2, 100, 1)] emptyStore) = [r] ∧
       r.score ∈ [(1, 100, 0), (2, 100, 1)].map (fun x : Oid × Int × Nat => x.2.1) ∧
       ∀ m ∈ [(1, 100, 0), (2, 100, 1)].map (fun x : Oid × Int × Nat => x.2.1), m ≤ r.score) ∧
    ∀ (s : Store) (r : WRDoc) (u : Oid) (t : Nat), wrFor 7 s = [r] →
      (submit_world_record ⟨IdIn.valid u, IdIn.valid 7, ScoreIn.num r.score⟩ t s).1 = s :=
  world_record_sequence_max 7 [(1, 100, 0), (2, 100, 1)] emptyStore rfl (by simp)

/-! ### Validation / error-handling claims -/

/-- Claim C6 counterexample: a payload with valid identifiers and the
negative score -5 against an empty store is NOT rejected: the operation
writes a record holding -5 and reports a new world record. -/
theorem score_validation_missing_cx :
    (submit_world_record ⟨IdIn.valid 1, IdIn.valid 2, ScoreIn.num (-5)⟩ 0 emptyStore).1.world_records
        = [⟨2, 1, -5, 0⟩] ∧
    (submit_world_record ⟨IdIn.valid 1, IdIn.valid 2, ScoreIn.num (-5)⟩ 0 emptyStore).2
        = Except.ok (Json.obj [("status", Json.bool true), ("newWorldRecord", Json.bool true)]) ∧
    (submit_world_record ⟨IdIn.valid 1, IdIn.valid 2, ScoreIn.num (-5)⟩ 0 emptyStore).1.world_records
        ≠ emptyStore.world_records :=
  ⟨rfl, rfl, List.cons_ne_nil _ _⟩

/-- Claim C6 (amended): a missing or malformed identifier, a missing
username, or a missing or non-numeric score makes either submit endpoint
fail with an uncaught exception (a server error, not a descriptive client
validation error), leaving the store unchanged; a validly-parsed integer
score - negative ones included - is never rejected. -/
theorem malformed_payload_unhandled :
    (∀ (p : WRPayload) (t : Nat) (s : Store),
       (p.userId = IdIn.missing ∨ p.userId = IdIn.malformed ∨
        p.gameId = IdIn.missing ∨ p.gameId = IdIn.malformed ∨
        p.score = ScoreIn.missing ∨ p.score = ScoreIn.nonNumeric) →
       submit_world_record p t s = (s, Except.error Err.unhandled)) ∧
    (∀ (p : TSPayload) (s : Store),
       (p.tournamentId = IdIn.missing ∨ p.tournamentId = IdIn.malformed ∨
        p.userId = IdIn.missing ∨ p.userId = IdIn.malformed ∨
        p.username = none ∨
        p.score = ScoreIn.missing ∨ p.score = ScoreIn.nonNumeric) →
       submit_tournament_score p s = (s, Except.error Err.unhandled)) ∧
    (∀ (u g : Oid) (n : Int) (t : Nat) (s : Store),
       ∃ j, (submit_world_record ⟨IdIn.valid u, IdIn.valid g, ScoreIn.num n⟩ t s).2 = Except.ok j) := by
  refine ⟨?_, ?_, ?_⟩
  · intro p t s h
    obtain ⟨pu, pg, ps⟩ := p
    rcases pu <;> rcases pg <;> rcases ps <;>
      simp_all [submit_world_record, parseId, parseScore]
  · intro p s h
    obtain ⟨pt, pu, pn, ps⟩ := p
    rcases pt <;> rcases pu <;> rcases pn <;> rcases ps <;>
      simp_all [submit_tournament_score, parseId, parseScore]
  · intro u g n t s
    simp only [submit_world_record, parseId, parseScore]
    split
    · exact ⟨_, rfl⟩
    · exact ⟨_, rfl⟩

/-- Concrete instantiation of malformed_payload_unhandled: a payload with
the userId key absent yields an unhandled exception and no mutation. -/
theorem malformed_payload_unhandled_wit :
    submit_world_record ⟨IdIn.missing, IdIn.valid 1, ScoreIn.num 3⟩ 0 emptyStore
        = (emptyStore, Except.error Err.unhandled) :=
  malformed_payload_unhandled.1 ⟨IdIn.missing, IdIn.valid 1, ScoreIn.num 3⟩ 0 emptyStore (Or.inl rfl)

/-- Claim C7 (code bug in user_details): looking up a well-formed id that
references no user yields HTTPException(400, "Invalid user_id") - the very
same error as a malformed id - because the HTTPException(404, "User not
found") raised inside the try block is swallowed by except Exception.
The third conjunct shows the 404 that the code builds and then discards. -/
theorem user_details_notfound_conflated :
    user_details (UserIdParam.valid 5) emptyStore
        = (emptyStore, Except.error (Err.http 400 "Invalid user_id")) ∧
    user_details UserIdParam.malformed emptyStore
        = (emptyStore, Except.error (Err.http 400 "Invalid user_id")) ∧
    user_details_try 5 emptyStore = Except.error (Err.http 404 "User not found") :=
  ⟨rfl, rfl, rfl⟩

/-! ### Response-shape claims -/

/-- Claim C8 counterexample: GET /api/games answers with a bare JSON array
of game objects, not an object containing a status field. -/
theorem games_endpoint_array_cx :
    (get_all_games {emptyStore with games := [⟨1, "g", "b", ["c"], "i", none⟩]}).2
        = Except.ok (Json.arr [gameJson ⟨1, "g", "b", ["c"], "i", none⟩]) ∧
    ¬ includesBoolStatus (Json.arr [gameJson ⟨1, "g", "b", ["c"], "i", none⟩]) :=
  ⟨rfl, fun h => h⟩

/-- Claim C8 (amended): every successful response of every endpoint other
than GET /api/games is a JSON object including a boolean status field,
while GET /api/games returns a bare JSON array. -/
theorem responses_include_status :
    (∀ (t : Nat) (s : Store), resultHasStatus (generate_guest t s).2) ∧
    (∀ (q : UserIdParam) (s : Store), resultHasStatus (user_details q s).2) ∧
    (∀ s : Store, resultHasStatus (get_game_details s).2) ∧
    (∀ s : Store, resultHasStatus (get_categories s).2) ∧
    (∀ (u : String) (t : Nat) (s : Store), resultHasStatus (create_user u t s).2) ∧
    (∀ (p : WRPayload) (t : Nat) (s : Store), resultHasStatus (submit_world_record p t s).2) ∧
    (∀ (p : TSPayload) (s : Store), resultHasStatus (submit_tournament_score p s).2) ∧
    (∀ s : Store, resultHasStatus (get_tournament_data s).2) ∧
    (∀ s : Store, resultHasStatus (get_all_world_records s).2) ∧
    (∀ s : Store, ∃ xs, (get_all_games s).2 = Except.ok (Json.arr xs)) := by
  refine ⟨?_, ?_, ?_, ?_, ?_, ?_, ?_, ?_, ?_, ?_⟩
  · intro t s
    exact ⟨true, List.mem_cons_self _ _⟩
  · intro q s
    cases q with
    | missing => trivial
    | emptyStr => trivial
    | malformed => trivial
    | valid o =>
        simp only [user_details]
        cases h : user_details_try o s with
        | error e => simp only [h]; trivial
        | ok j =>
            simp only [h]
            unfold user_details_try at h
            split at h
            · exact absurd h (by simp)
            · cases h
              exact ⟨true, List.mem_cons_self _ _⟩
  · intro s
    exact ⟨true, List.mem_cons_self _ _⟩
  · intro s
    unfold get_categories
    split
    · exact ⟨true, List.mem_cons_self _ _⟩
    · trivial
  · intro u t s
    unfold create_user
    split
    · trivial
    · exact ⟨true, List.mem_cons_self _ _⟩
  · intro p t s
    obtain ⟨pu, pg, ps⟩ := p
    rcases pu <;> rcases pg <;> rcases ps <;>
      simp only [submit_world_record, parseId, parseScore] <;>
      first
        | trivial
        | (split <;> exact ⟨true, List.mem_cons_self _ _⟩)
  · intro p s
    obtain ⟨pt, pu, pn, ps⟩ := p
    rcases pt <;> rcases pu <;> rcases pn <;> rcases ps <;>
      simp only [submit_tournament_score, parseId, parseScore] <;>
      first
        | trivial
        | ((repeat' split) <;> exact ⟨true, List.mem_cons_self _ _⟩)
  · intro s
    exact ⟨true, List.mem_cons_self _ _⟩
  · intro s
    exact ⟨true, List.mem_cons_self _ _⟩
  · intro s
    exact ⟨_, rfl⟩

/-! ### Read-only endpoint claim -/

/-- Claim C9: every GET endpoint returns the store it was given - reads
never insert, update or delete any document. -/
theorem read_endpoints_no_mutation (s : Store) (q : UserIdParam) :
    (user_details q s).1 = s ∧ (get_game_details s).1 = s ∧ (get_categories s).1 = s ∧
    (get_all_games s).1 = s ∧ (get_tournament_data s).1 = s ∧ (get_all_world_records s).1 = s := by
  refine ⟨?_, rfl, ?_, rfl, rfl, rfl⟩
  · cases q with
    | missing => rfl
    | emptyStr => rfl
    | malformed => rfl
    | valid o =>
        simp only [user_details]
        cases h : user_details_try o s <;> simp only [h]
  · unfold get_categories
    split <;> rfl

/-! ### User-creation round-trip claim -/

/-- A freshly appended user document with an id never seen before is what
find_one retrieves for that id. -/
theorem find?_fresh_user (l : List UserDoc) (d : UserDoc)
    (h : ∀ u ∈ l, ¬ u.id = d.id) :
    (l ++ [d]).find? (fun u => u.id == d.id) = some d := by
  rw [find?_append_single d (List.find?_eq_none.mpr (fun x hx => by simp [h x hx]))]
  simp

/-- Claim C10: a guest created by POST /api/generate_guest reads back with
is_guest = true and balance = 0.0, while a user created by POST
/api/user/create reads back with is_guest = false and balance = 0.0,
because create_user stores the flag under the key isGuest (read path uses
is_guest) and stores no balance field. -/
theorem guest_and_created_user_roundtrip (s : Store) (t t2 : Nat) (uname : String)
    (hWF : WFusers s) (hu : ¬ pyStrip uname = "") :
    (generate_guest t s).2 = Except.ok (Json.obj [("status", Json.bool true),
        ("token", Json.str (create_access_token s.nextUserId)),
        ("userId", Json.str (oidStr s.nextUserId))]) ∧
    user_details (UserIdParam.valid s.nextUserId) (generate_guest t s).1
        = ((generate_guest t s).1, Except.ok (Json.obj [("status", Json.bool true),
            ("userId", Json.str (oidStr s.nextUserId)),
            ("balance", Json.dbl 0), ("is_guest", Json.bool true)])) ∧
    (create_user uname t2 s).2 = Except.ok (Json.obj [("status", Json.bool true),
        ("userId", Json.str (oidStr s.nextUserId)), ("username", Json.str uname)]) ∧
    user_details (UserIdParam.valid s.nextUserId) (create_user uname t2 s).1
        = ((create_user uname t2 s).1, Except.ok (Json.obj [("status", Json.bool true),
            ("userId", Json.str (oidStr s.nextUserId)),
            ("balance", Json.dbl 0), ("is_guest", Json.bool false)])) := by
  have hfresh : ∀ u ∈ s.users, ¬ u.id = s.nextUserId :=
    fun u hu2 => Nat.ne_of_lt (hWF u hu2)
  refine ⟨rfl, ?_, ?_, ?_⟩
  · have h1 : ((generate_guest t s).1).users.find? (fun u => u.id == s.nextUserId)
        = some ⟨s.nextUserId, none, some true, none, some 0, some t, none⟩ := by
      simp only [generate_guest]
      exact find?_fresh_user s.users
        ⟨s.nextUserId, none, some true, none, some 0, some t, none⟩ hfresh
    simp [user_details, user_details_try, h1, Option.getD]
  · simp [create_user, hu]
  · have h1 : ((create_user uname t2 s).1).users.find? (fun u => u.id == s.nextUserId)
        = some ⟨s.nextUserId, some (pyStrip uname), none, some true, none, none, some t2⟩ := by
      simp only [create_user, hu, if_neg, if_false]
      exact find?_fresh_user s.users
        ⟨s.nextUserId, some (pyStrip uname), none, some true, none, none, some t2⟩ hfresh
    simp [user_details, user_details_try, h1, Option.getD]

/-- Concrete instantiation of guest_and_created_user_roundtrip on the
empty store with username "bob". -/
theorem guest_and_created_user_roundtrip_wit :
    (generate_guest 0 emptyStore).2 = Except.ok (Json.obj [("status", Json.bool true),
        ("token", Json.str (create_access_token emptyStore.nextUserId)),
        ("userId", Json.str (oidStr emptyStore.nextUserId))]) ∧
    user_details (UserIdParam.valid emptyStore.nextUserId) (generate_guest 0 emptyStore).1
        = ((generate_guest 0 emptyStore).1, Except.ok (Json.obj [("status", Json.bool true),
            ("userId", Json.str (oidStr emptyStore.nextUserId)),
            ("balance", Json.dbl 0), ("is_guest", Json.bool true)])) ∧
    (create_user "bob" 0 emptyStore).2 = Except.ok (Json.obj [("status", Json.bool true),
        ("userId", Json.str (oidStr emptyStore.nextUserId)), ("username", Json.str "bob")]) ∧
    user_details (UserIdParam.valid emptyStore.nextUserId) (create_user "bob" 0 emptyStore).1
        = ((create_user "bob" 0 emptyStore).1, Except.ok (Json.obj [("status", Json.bool true),
            ("userId", Json.str (oidStr emptyStore.nextUserId)),
            ("balance", Json.dbl 0), ("is_guest", Json.bool false)])) :=
  guest_and_created_user_roundtrip emptyStore 0 0 "bob"
    (fun u hu2 => absurd hu2 (List.not_mem_nil u)) (by decide)

/-! ### Tournament-score collection lemmas -/

/-- The stable descending sort is a permutation of its input. -/
theorem sortByScoreDesc_perm (l : List TSDoc) : (sortByScoreDesc l).Perm l :=
  List.perm_insertionSort scoreDesc l

/-- The stable descending sort is sorted for the descending relation. -/
theorem sortByScoreDesc_sorted (l : List TSDoc) :
    List.Sorted scoreDesc (sortByScoreDesc l) :=
  List.sorted_insertionSort scoreDesc l

/-- update_one on the score leaves every _id in place. -/
theorem update_one_score_map_id (i : Nat) (n : Int) :
    ∀ l : List TSDoc, (update_one_score i n l).map (fun d => d.id) = l.map (fun d => d.id) := by
  intro l
  induction l with
  | nil => rfl
  | cons d ds ih =>
      by_cases hd : d.id = i
      · simp [update_one_score, hd]
      · have hdb : (d.id == i) = false := by simpa using hd
        simp [update_one_score, hdb, ih]

/-- Every document after update_one descends from a stored document with
the same _id, tournamentId, userId and username; only the score of the
first _id match may change, to the submitted value. -/
theorem update_one_score_mem (i : Nat) (n : Int) :
    ∀ (l : List TSDoc), ∀ d' ∈ update_one_score i n l,
      ∃ d ∈ l, d'.id = d.id ∧ d'.tournamentId = d.tournamentId ∧
        d'.userId = d.userId ∧ d'.username = d.username ∧
        (d'.score = d.score ∨ (d.id = i ∧ d'.score = n)) := by
  intro l
  induction l with
  | nil => intro d' h; simp [update_one_score] at h
  | cons d ds ih =>
      intro d' h
      by_cases hd : d.id = i
      · rw [update_one_score, if_pos (by simpa using hd)] at h
        rcases List.mem_cons.mp h with rfl | h2
        · exact ⟨d, List.mem_cons_self _ _, rfl, rfl, rfl, rfl, Or.inr ⟨hd, rfl⟩⟩
        · exact ⟨d', List.mem_cons_of_mem _ h2, rfl, rfl, rfl, rfl, Or.inl rfl⟩
      · rw [update_one_score, if_neg (by simpa using hd)] at h
        rcases List.mem_cons.mp h with rfl | h2
        · exact ⟨d', List.mem_cons_self _ _, rfl, rfl, rfl, rfl, Or.inl rfl⟩
        · obtain ⟨e, he, h1, h2', h3, h4, h5⟩ := ih d' h2
          exact ⟨e, List.mem_cons_of_mem _ he, h1, h2', h3, h4, h5⟩

/-- update_one on the score keeps the per-tournament document count. -/
theorem update_one_score_filter_len (i : Nat) (n : Int) (T : Oid) :
    ∀ l : List TSDoc,
      ((update_one_score i n l).filter (fun d => d.tournamentId == T)).length
        = (l.filter (fun d => d.tournamentId == T)).length := by
  intro l
  induction l with
  | nil => rfl
  | cons d ds ih =>
      by_cases hd : d.id = i
      · rw [update_one_score, if_pos (by simpa using hd)]
        by_cases ht : d.tournamentId = T
        · rw [List.filter_cons_of_pos (by simpa using ht),
            List.filter_cons_of_pos (by simpa using ht)]
          simp
        · rw [List.filter_cons_of_neg (by simpa using ht),
            List.filter_cons_of_neg (by simpa using ht)]
      · rw [update_one_score, if_neg (by simpa using hd)]
        by_cases ht : d.tournamentId = T
        · rw [List.filter_cons_of_pos (by simpa using ht),
            List.filter_cons_of_pos (by simpa using ht)]
          simp [ih]
        · rw [List.filter_cons_of_neg (by simpa using ht),
            List.filter_cons_of_neg (by simpa using ht)]
          exact ih

/-- update_one on the score keeps the per-tournament userId sequence. -/
theorem update_one_score_filter_uids (i : Nat) (n : Int) (T : Oid) :
    ∀ l : List TSDoc,
      ((update_one_score i n l).filter (fun d => d.tournamentId == T)).map (fun d => d.userId)
        = (l.filter (fun d => d.tournamentId == T)).map (fun d => d.userId) := by
  intro l
  induction l with
  | nil => rfl
  | cons d ds ih =>
      by_cases hd : d.id = i
      · rw [update_one_score, if_pos (by simpa using hd)]
        by_cases ht : d.tournamentId = T
        · rw [List.filter_cons_of_pos (by simpa using ht),
            List.filter_cons_of_pos (by simpa using ht)]
          simp
        · rw [List.filter_cons_of_neg (by simpa using ht),
            List.filter_cons_of_neg (by simpa using ht)]
      · rw [update_one_score, if_neg (by simpa using hd)]
        by_cases ht : d.tournamentId = T
        · rw [List.filter_cons_of_pos (by simpa using ht),
            List.filter_cons_of_pos (by simpa using ht)]
          simp [ih]
        · rw [List.filter_cons_of_neg (by simpa using ht),
            List.filter_cons_of_neg (by simpa using ht)]
          exact ih

/-- Core trim lemma: after deleting exactly the documents beyond rank 50
of the sorted per-tournament view, the per-tournament documents that
remain are (up to order) the top 50 of that sorted view. -/
theorem trim_perm (T : Oid) (l : List TSDoc)
    (hids : (l.map (fun d => d.id)).Nodup)
    (sorted1 : List TSDoc)
    (hs1 : sorted1 = sortByScoreDesc (l.filter (fun d => d.tournamentId == T)))
    (delIds : List Nat)
    (hdel : delIds = (sorted1.drop 50).map (fun d => d.id)) :
    ((if delIds.isEmpty then l
      else l.filter (fun d => !(decide (d.id ∈ delIds)))).filter
        (fun d => d.tournamentId == T)).Perm (sorted1.take 50) := by
  have hperm : sorted1.Perm (l.filter (fun d => d.tournamentId == T)) := by
    rw [hs1]; exact sortByScoreDesc_perm _
  have hflids : ((l.filter (fun d => d.tournamentId == T)).map (fun d => d.id)).Nodup :=
    (List.Sublist.map (fun d => d.id) (List.filter_sublist l)).nodup hids
  have hflnodup : (l.filter (fun d => d.tournamentId == T)).Nodup :=
    List.Nodup.of_map _ hflids
  have hs1nodup : sorted1.Nodup := hperm.nodup_iff.mpr hflnodup
  by_cases hempty : delIds.isEmpty
  · have hdrop : sorted1.drop 50 = [] := by
      have hmap : (sorted1.drop 50).map (fun d => d.id) = [] := by
        rw [← hdel]; exact List.isEmpty_iff.mp hempty
      exact List.map_eq_nil_iff.mp hmap
    have htake : sorted1.take 50 = sorted1 :=
      List.take_of_length_le (List.drop_eq_nil_iff.mp hdrop)
    rw [if_pos hempty, htake]
    exact hperm.symm
  · rw [if_neg hempty]
    have hchar : ∀ d ∈ l.filter (fun d => d.tournamentId == T),
        (!(decide (d.id ∈ delIds))) = (!(decide (d ∈ sorted1.drop 50))) := by
      intro d hd
      have hiff : (d.id ∈ delIds) ↔ (d ∈ sorted1.drop 50) := by
        constructor
        · intro hmem
          rw [hdel] at hmem
          obtain ⟨e, he, heid⟩ := List.mem_map.mp hmem
          have he1 : e ∈ sorted1 := (List.drop_sublist 50 sorted1).subset he
          have he2 : e ∈ l := (List.filter_sublist l).subset (hperm.mem_iff.mp he1)
          have hd2 : d ∈ l := (List.filter_sublist l).subset hd
          have hed : e = d := List.inj_on_of_nodup_map hids he2 hd2 heid
          rw [← hed]; exact he
        · intro hmem
          rw [hdel]
          exact List.mem_map.mpr ⟨d, hmem, rfl⟩
      rw [decide_eq_decide.mpr hiff]
    have hcomm : (l.filter (fun d => !(decide (d.id ∈ delIds)))).filter
          (fun d => d.tournamentId == T)
        = (l.filter (fun d => d.tournamentId == T)).filter
            (fun d => !(decide (d.id ∈ delIds))) := by
      rw [List.filter_filter, List.filter_filter]
      exact List.filter_congr (fun x _ => Bool.and_comm _ _)
    rw [hcomm, List.filter_congr hchar]
    have h2 : ((l.filter (fun d => d.tournamentId == T)).filter
          (fun d => !(decide (d ∈ sorted1.drop 50)))).Perm
        (sorted1.filter (fun d => !(decide (d ∈ sorted1.drop 50)))) :=
      List.Perm.filter _ hperm.symm
    have hdisj : List.Disjoint (sorted1.take 50) (sorted1.drop 50) := by
      have h3 := hs1nodup
      rw [← List.take_append_drop 50 sorted1] at h3
      exact (List.nodup_append.mp h3).2.2
    have key : sorted1.filter (fun d => !(decide (d ∈ sorted1.drop 50)))
        = sorted1.take 50 := by
      rw [show sorted1.filter (fun d => !(decide (d ∈ sorted1.drop 50)))
            = (sorted1.take 50 ++ sorted1.drop 50).filter
                (fun d => !(decide (d ∈ sorted1.drop 50))) from by
        rw [List.take_append_drop]]
      rw [List.filter_append,
        List.filter_eq_self.mpr (fun a ha => by rw [decide_eq_false (hdisj ha)]; rfl),
        List.filter_eq_nil_iff.mpr (fun a ha => by simp [ha]),
        List.append_nil]
    exact h2.trans (key ▸ List.Perm.refl _)

/-- Sorting keeps the length. -/
theorem sortByScoreDesc_length (l : List TSDoc) :
    (sortByScoreDesc l).length = l.length :=
  List.length_insertionSort scoreDesc l

/-- Appending a document of the tournament commutes with the tournament
filter. -/
theorem filter_append_doc (T : Oid) (l : List TSDoc) (d : TSDoc) (hd : d.tournamentId = T) :
    (l ++ [d]).filter (fun x => x.tournamentId == T)
      = l.filter (fun x => x.tournamentId == T) ++ [d] := by
  rw [List.filter_append]
  congr 1
  simp [hd]

/-- Appending one document carrying the fresh counter id keeps the _id
list duplicate-free. -/
theorem append_ids_nodup (l : List TSDoc) (nextId : Nat)
    (hnd : (l.map (fun d => d.id)).Nodup) (hlt : ∀ d ∈ l, d.id < nextId)
    (d : TSDoc) (hd : d.id = nextId) :
    ((l ++ [d]).map (fun x => x.id)).Nodup := by
  rw [List.map_append, List.nodup_append]
  refine ⟨hnd, by simp, ?_⟩
  intro a ha hb
  rcases List.mem_map.mp ha with ⟨e, he, rfl⟩
  have hb2 : e.id = d.id := by simpa using hb
  have := hlt e he
  rw [hb2, hd] at this
  exact lt_irrefl _ this

/-- The insert-then-trim mutation leaves, per tournament, exactly the top
50 of the sorted post-insert view (up to order). -/
theorem insertAndTrim_perm (T : Oid) (newDoc : TSDoc) (l : List TSDoc)
    (hids : ((l ++ [newDoc]).map (fun d => d.id)).Nodup) :
    ((insertAndTrim T newDoc l).filter (fun d => d.tournamentId == T)).Perm
      ((sortByScoreDesc ((l ++ [newDoc]).filter (fun d => d.tournamentId == T))).take 50) := by
  simp only [insertAndTrim]
  exact trim_perm T (l ++ [newDoc]) hids _ rfl _ rfl

/-- The insert-then-trim result is a sublist of the post-insert list. -/
theorem insertAndTrim_sublist (T : Oid) (newDoc : TSDoc) (l : List TSDoc) :
    (insertAndTrim T newDoc l).Sublist (l ++ [newDoc]) := by
  simp only [insertAndTrim]
  split
  · exact List.Sublist.refl _
  · exact List.filter_sublist _

/-- When the leaderboard is under 50 entries, or the new score strictly
beats the stored minimum, the freshly inserted document survives the trim. -/
theorem insertAndTrim_mem_new (T u : Oid) (uname : String) (n : Int) (l : List TSDoc) (nid : Nat)
    (hids : ((l ++ [(⟨nid, T, u, uname, n⟩ : TSDoc)]).map (fun d => d.id)).Nodup)
    (hlen50 : (l.filter (fun d => d.tournamentId == T)).length ≤ 50)
    (hB : (l.filter (fun d => d.tournamentId == T)).length < 50 ∨
      (∃ last, (sortByScoreDesc (l.filter (fun d => d.tournamentId == T))).getLast? = some last ∧
        last.score < n)) :
    (⟨nid, T, u, uname, n⟩ : TSDoc) ∈ insertAndTrim T ⟨nid, T, u, uname, n⟩ l := by
  have hmem1 : (⟨nid, T, u, uname, n⟩ : TSDoc) ∈ l ++ [(⟨nid, T, u, uname, n⟩ : TSDoc)] :=
    List.mem_append.mpr (Or.inr (List.mem_singleton.mpr rfl))
  have hins : (l ++ [(⟨nid, T, u, uname, n⟩ : TSDoc)]).filter (fun x => x.tournamentId == T)
      = l.filter (fun x => x.tournamentId == T) ++ [⟨nid, T, u, uname, n⟩] :=
    filter_append_doc T l _ rfl
  simp only [insertAndTrim]
  split
  · exact hmem1
  · refine List.mem_filter.mpr ⟨hmem1, ?_⟩
    simp only [Bool.not_eq_true', decide_eq_false_iff_not]
    intro hmemdel
    obtain ⟨e, he, heid⟩ := List.mem_map.mp hmemdel
    have he1 : e ∈ sortByScoreDesc ((l ++ [(⟨nid, T, u, uname, n⟩ : TSDoc)]).filter
        (fun d => d.tournamentId == T)) :=
      (List.drop_sublist _ _).subset he
    have he2 : e ∈ (l ++ [(⟨nid, T, u, uname, n⟩ : TSDoc)]).filter (fun d => d.tournamentId == T) :=
      (sortByScoreDesc_perm _).mem_iff.mp he1
    have he3 : e ∈ l ++ [(⟨nid, T, u, uname, n⟩ : TSDoc)] := (List.filter_sublist _).subset he2
    have hednew : e = ⟨nid, T, u, uname, n⟩ :=
      List.inj_on_of_nodup_map hids he3 hmem1 heid
    have hlenf : ((l ++ [(⟨nid, T, u, uname, n⟩ : TSDoc)]).filter (fun d => d.tournamentId == T)).length
        = (l.filter (fun d => d.tournamentId == T)).length + 1 := by
      rw [hins]
      simp
    have hlens1 : (sortByScoreDesc ((l ++ [(⟨nid, T, u, uname, n⟩ : TSDoc)]).filter
        (fun d => d.tournamentId == T))).length
        = (l.filter (fun d => d.tournamentId == T)).length + 1 := by
      rw [sortByScoreDesc_length, hlenf]
    have h50lt : 50 < (l.filter (fun d => d.tournamentId == T)).length + 1 := by
      by_contra hc
      push_neg at hc
      have hdropnil : (sortByScoreDesc ((l ++ [(⟨nid, T, u, uname, n⟩ : TSDoc)]).filter
          (fun d => d.tournamentId == T))).drop 50 = [] :=
        List.drop_eq_nil_iff.mpr (by rw [hlens1]; omega)
      rw [hdropnil] at he
      exact absurd he (List.not_mem_nil e)
    have hlen_eq : (l.filter (fun d => d.tournamentId == T)).length = 50 := by omega
    rcases hB with h50 | ⟨last0, hlast0, hlt0⟩
    · omega
    · have hdl : ((sortByScoreDesc ((l ++ [(⟨nid, T, u, uname, n⟩ : TSDoc)]).filter
          (fun d => d.tournamentId == T))).drop 50).length = 1 := by
        rw [List.length_drop, hlens1, hlen_eq]
      obtain ⟨z, hz⟩ := List.length_eq_one.mp hdl
      have hgl : (sortByScoreDesc ((l ++ [(⟨nid, T, u, uname, n⟩ : TSDoc)]).filter
          (fun d => d.tournamentId == T))).getLast? = some z := by
        conv_lhs => rw [← List.take_append_drop 50 (sortByScoreDesc ((l ++ [(⟨nid, T, u, uname, n⟩ : TSDoc)]).filter
          (fun d => d.tournamentId == T))), hz]
        exact List.getLast?_concat _
      have hzmin := sorted_getLast?_le (sortByScoreDesc_sorted _) hgl
      rw [hednew] at he
      rw [hz] at he
      have hzn : z = (⟨nid, T, u, uname, n⟩ : TSDoc) := (List.mem_singleton.mp he).symm
      have hl0mem : last0 ∈ sortByScoreDesc ((l ++ [(⟨nid, T, u, uname, n⟩ : TSDoc)]).filter
          (fun d => d.tournamentId == T)) := by
        apply (sortByScoreDesc_perm _).mem_iff.mpr
        rw [hins]
        exact List.mem_append.mpr (Or.inl
          ((sortByScoreDesc_perm _).mem_iff.mp (List.mem_of_getLast?_eq_some hlast0)))
      have hfin := hzmin last0 hl0mem
      rw [hzn] at hfin
      have hfin2 : n ≤ last0.score := hfin
      omega

/-! ### Tournament claims -/

/-- Claim C5: for a participant who already has a stored entry (the first
match in the sorted view), resubmitting a score lower than or equal to the
stored one mutates nothing and returns status true; only a strictly
greater score updates the entry, and then only its score field - _id,
tournamentId, userId and the denormalized username of every stored
document are untouched. -/
theorem tournament_resubmit_idempotent (T u : Oid) (uname : String) (n : Int) (s : Store)
    (e : TSDoc)
    (hfind : (sortByScoreDesc (s.tournament_scores.filter (fun d => d.tournamentId == T))).find?
        (fun d => d.userId == u) = some e) :
    (n ≤ e.score →
      (submit_tournament_score ⟨IdIn.valid T, IdIn.valid u, some uname, ScoreIn.num n⟩ s).1 = s ∧
      (submit_tournament_score ⟨IdIn.valid T, IdIn.valid u, some uname, ScoreIn.num n⟩ s).2
        = Except.ok (Json.obj [("status", Json.bool true)])) ∧
    (e.score < n →
      (submit_tournament_score ⟨IdIn.valid T, IdIn.valid u, some uname, ScoreIn.num n⟩ s).1
        = {s with tournament_scores := update_one_score e.id n s.tournament_scores} ∧
      (submit_tournament_score ⟨IdIn.valid T, IdIn.valid u, some uname, ScoreIn.num n⟩ s).2
        = Except.ok (Json.obj [("status", Json.bool true)]) ∧
      ∀ d' ∈ (submit_tournament_score ⟨IdIn.valid T, IdIn.valid u, some uname, ScoreIn.num n⟩ s).1.tournament_scores,
        ∃ d ∈ s.tournament_scores, d'.id = d.id ∧ d'.tournamentId = d.tournamentId ∧
          d'.userId = d.userId ∧ d'.username = d.username ∧
          (d'.score = d.score ∨ (d.id = e.id ∧ d'.score = n))) := by
  constructor
  · intro hle
    have hnlt : ¬ (e.score < n) := not_lt.mpr hle
    constructor <;> simp [submit_tournament_score, parseId, parseScore, hfind, hnlt]
  · intro hlt
    have hst : (submit_tournament_score ⟨IdIn.valid T, IdIn.valid u, some uname, ScoreIn.num n⟩ s).1
        = {s with tournament_scores := update_one_score e.id n s.tournament_scores} := by
      simp [submit_tournament_score, parseId, parseScore, hfind, hlt]
    refine ⟨hst, ?_, ?_⟩
    · simp [submit_tournament_score, parseId, parseScore, hfind, hlt]
    · rw [hst]
      exact update_one_score_mem e.id n s.tournament_scores

/-- Concrete instantiation of tournament_resubmit_idempotent: the stored
entry (tournament 3, user 1, score 10) and a resubmission of 5. -/
theorem tournament_resubmit_idempotent_wit :
    (5 ≤ (10 : Int) →
      (submit_tournament_score ⟨IdIn.valid 3, IdIn.valid 1, some "a", ScoreIn.num 5⟩
          {emptyStore with tournament_scores := [⟨0, 3, 1, "a", 10⟩], nextTsId := 1}).1
        = {emptyStore with tournament_scores := [⟨0, 3, 1, "a", 10⟩], nextTsId := 1} ∧
      (submit_tournament_score ⟨IdIn.valid 3, IdIn.valid 1, some "a", ScoreIn.num 5⟩
          {emptyStore with tournament_scores := [⟨0, 3, 1, "a", 10⟩], nextTsId := 1}).2
        = Except.ok (Json.obj [("status", Json.bool true)])) ∧
    ((10 : Int) < 5 →
      (submit_tournament_score ⟨IdIn.valid 3, IdIn.valid 1, some "a", ScoreIn.num 5⟩
          {emptyStore with tournament_scores := [⟨0, 3, 1, "a", 10⟩], nextTsId := 1}).1
        = {{emptyStore with tournament_scores := [⟨0, 3, 1, "a", 10⟩], nextTsId := 1} with
            tournament_scores := update_one_score 0 5 [⟨0, 3, 1, "a", 10⟩]} ∧
      (submit_tournament_score ⟨IdIn.valid 3, IdIn.valid 1, some "a", ScoreIn.num 5⟩
          {emptyStore with tournament_scores := [⟨0, 3, 1, "a", 10⟩], nextTsId := 1}).2
        = Except.ok (Json.obj [("status", Json.bool true)]) ∧
      ∀ d' ∈ (submit_tournament_score ⟨IdIn.valid 3, IdIn.valid 1, some "a", ScoreIn.num 5⟩
          {emptyStore with tournament_scores := [⟨0, 3, 1, "a", 10⟩], nextTsId := 1}).1.tournament_scores,
        ∃ d ∈ [(⟨0, 3, 1, "a", 10⟩ : TSDoc)], d'.id = d.id ∧ d'.tournamentId = d.tournamentId ∧
          d'.userId = d.userId ∧ d'.username = d.username ∧
          (d'.score = d.score ∨ (d.id = 0 ∧ d'.score = 5))) :=
  tournament_resubmit_idempotent 3 1 "a" 5
    {emptyStore with tournament_scores := [⟨0, 3, 1, "a", 10⟩], nextTsId := 1}
    ⟨0, 3, 1, "a", 10⟩ (by decide)

/-- Claim C3: a new participant (no stored entry for the userId) is
admitted - insert, trim to 50, qualified = true - exactly when the
tournament has fewer than 50 stored documents or the score strictly
exceeds the lowest stored score (the last element of the descending sort,
which the third conjunct shows to be a lower bound of all stored scores);
otherwise nothing is mutated and the response is qualified = false with
approxRank ">50". -/
theorem tournament_new_participant_admission (T u : Oid) (uname : String) (n : Int) (s : Store)
    (hWF : WFts s) (hlen50 : (tsFor T s).length ≤ 50)
    (hnew : (sortByScoreDesc (tsFor T s)).find? (fun d => d.userId == u) = none) :
    (((tsFor T s).length < 50 ∨
      (∃ last, (sortByScoreDesc (tsFor T s)).getLast? = some last ∧ last.score < n)) →
      (submit_tournament_score ⟨IdIn.valid T, IdIn.valid u, some uname, ScoreIn.num n⟩ s).2
        = Except.ok (Json.obj [("status", Json.bool true), ("qualified", Json.bool true)]) ∧
      (⟨s.nextTsId, T, u, uname, n⟩ : TSDoc) ∈
        (submit_tournament_score ⟨IdIn.valid T, IdIn.valid u, some uname, ScoreIn.num n⟩ s).1.tournament_scores ∧
      (tsFor T (submit_tournament_score ⟨IdIn.valid T, IdIn.valid u, some uname, ScoreIn.num n⟩ s).1).Perm
        ((sortByScoreDesc (tsFor T s ++ [⟨s.nextTsId, T, u, uname, n⟩])).take 50)) ∧
    (¬ ((tsFor T s).length < 50 ∨
      (∃ last, (sortByScoreDesc (tsFor T s)).getLast? = some last ∧ last.score < n)) →
      (submit_tournament_score ⟨IdIn.valid T, IdIn.valid u, some uname, ScoreIn.num n⟩ s).1 = s ∧
      (submit_tournament_score ⟨IdIn.valid T, IdIn.valid u, some uname, ScoreIn.num n⟩ s).2
        = Except.ok (Json.obj [("status", Json.bool true), ("qualified", Json.bool false),
            ("approxRank", Json.str ">50")])) ∧
    (∀ last, (sortByScoreDesc (tsFor T s)).getLast? = some last →
      ∀ d ∈ tsFor T s, last.score ≤ d.score) := by
  have hlast_min : ∀ last, (sortByScoreDesc (tsFor T s)).getLast? = some last →
      ∀ d ∈ tsFor T s, last.score ≤ d.score := by
    intro last hlast d hd
    exact sorted_getLast?_le (sortByScoreDesc_sorted _) hlast d
      ((sortByScoreDesc_perm _).mem_iff.mpr hd)
  have hids1 : ((s.tournament_scores ++ [(⟨s.nextTsId, T, u, uname, n⟩ : TSDoc)]).map
      (fun d => d.id)).Nodup :=
    append_ids_nodup s.tournament_scores s.nextTsId hWF.1 hWF.2 _ rfl
  simp only [tsFor] at hlen50 hnew hlast_min ⊢
  refine ⟨?_, ?_, hlast_min⟩
  · intro hadm
    have hsub : submit_tournament_score ⟨IdIn.valid T, IdIn.valid u, some uname, ScoreIn.num n⟩ s
        = ({s with
              tournament_scores := insertAndTrim T ⟨s.nextTsId, T, u, uname, n⟩ s.tournament_scores,
              nextTsId := s.nextTsId + 1},
           Except.ok (Json.obj [("status", Json.bool true), ("qualified", Json.bool true)])) := by
      rcases hadm with h50 | ⟨last, hlast, hlt⟩
      · have hlt50 : (sortByScoreDesc (s.tournament_scores.filter
            (fun d => d.tournamentId == T))).length < 50 := by
          rw [sortByScoreDesc_length]; exact h50
        simp [submit_tournament_score, parseId, parseScore, hnew, hlt50]
      · simp [submit_tournament_score, parseId, parseScore, hnew, hlast, hlt]
    refine ⟨by rw [hsub], ?_, ?_⟩
    · rw [hsub]
      exact insertAndTrim_mem_new T u uname n s.tournament_scores s.nextTsId hids1 hlen50 hadm
    · rw [hsub]
      have hperm := insertAndTrim_perm T ⟨s.nextTsId, T, u, uname, n⟩ s.tournament_scores hids1
      rw [show (s.tournament_scores.filter (fun d => d.tournamentId == T)
            ++ [(⟨s.nextTsId, T, u, uname, n⟩ : TSDoc)])
          = (s.tournament_scores ++ [(⟨s.nextTsId, T, u, uname, n⟩ : TSDoc)]).filter
              (fun d => d.tournamentId == T) from
        (filter_append_doc T s.tournament_scores _ rfl).symm]
      exact hperm
  · intro hrej
    push_neg at hrej
    obtain ⟨h50, hlast⟩ := hrej
    have hge : ¬ ((sortByScoreDesc (s.tournament_scores.filter
        (fun d => d.tournamentId == T))).length < 50) := by
      rw [sortByScoreDesc_length]; omega
    cases hgl : (sortByScoreDesc (s.tournament_scores.filter
        (fun d => d.tournamentId == T))).getLast? with
    | none =>
        have hsub : submit_tournament_score ⟨IdIn.valid T, IdIn.valid u, some uname, ScoreIn.num n⟩ s
            = (s, Except.ok (Json.obj [("status", Json.bool true), ("qualified", Json.bool false),
                ("approxRank", Json.str ">50")])) := by
          simp [submit_tournament_score, parseId, parseScore, hnew, hgl, hge]
        exact ⟨by rw [hsub], by rw [hsub]⟩
    | some last =>
        have hnlt : ¬ (last.score < n) := not_lt.mpr (hlast last hgl)
        have hsub : submit_tournament_score ⟨IdIn.valid T, IdIn.valid u, some uname, ScoreIn.num n⟩ s
            = (s, Except.ok (Json.obj [("status", Json.bool true), ("qualified", Json.bool false),
                ("approxRank", Json.str ">50")])) := by
          simp [submit_tournament_score, parseId, parseScore, hnew, hgl, hge, hnlt]
        exact ⟨by rw [hsub], by rw [hsub]⟩

/-- Concrete instantiation of tournament_new_participant_admission: user 1
submits score 10 to the empty tournament 3. -/
theorem tournament_new_participant_admission_wit :
    (((tsFor 3 emptyStore).length < 50 ∨
      (∃ last, (sortByScoreDesc (tsFor 3 emptyStore)).getLast? = some last ∧ last.score < 10)) →
      (submit_tournament_score ⟨IdIn.valid 3, IdIn.valid 1, some "a", ScoreIn.num 10⟩ emptyStore).2
        = Except.ok (Json.obj [("status", Json.bool true), ("qualified", Json.bool true)]) ∧
      (⟨emptyStore.nextTsId, 3, 1, "a", 10⟩ : TSDoc) ∈
        (submit_tournament_score ⟨IdIn.valid 3, IdIn.valid 1, some "a", ScoreIn.num 10⟩ emptyStore).1.tournament_scores ∧
      (tsFor 3 (submit_tournament_score ⟨IdIn.valid 3, IdIn.valid 1, some "a", ScoreIn.num 10⟩ emptyStore).1).Perm
        ((sortByScoreDesc (tsFor 3 emptyStore ++ [⟨emptyStore.nextTsId, 3, 1, "a", 10⟩])).take 50)) ∧
    (¬ ((tsFor 3 emptyStore).length < 50 ∨
      (∃ last, (sortByScoreDesc (tsFor 3 emptyStore)).getLast? = some last ∧ last.score < 10)) →
      (submit_tournament_score ⟨IdIn.valid 3, IdIn.valid 1, some "a", ScoreIn.num 10⟩ emptyStore).1 = emptyStore ∧
      (submit_tournament_score ⟨IdIn.valid 3, IdIn.valid 1, some "a", ScoreIn.num 10⟩ emptyStore).2
        = Except.ok (Json.obj [("status", Json.bool true), ("qualified", Json.bool false),
            ("approxRank", Json.str ">50")])) ∧
    (∀ last, (sortByScoreDesc (tsFor 3 emptyStore)).getLast? = some last →
      ∀ d ∈ tsFor 3 emptyStore, last.score ≤ d.score) :=
  tournament_new_participant_admission 3 1 "a" 10 emptyStore
    ⟨List.nodup_nil, fun d hd => absurd hd (List.not_mem_nil d)⟩ (by decide) rfl

/-- Inserting a document for a userId that find? does not locate in the
sorted view keeps the per-tournament userId list duplicate-free. -/
theorem insert_uids_nodup (T u : Oid) (uname : String) (n : Int) (s : Store)
    (hnodup : ((s.tournament_scores.filter (fun d => d.tournamentId == T)).map
        (fun d => d.userId)).Nodup)
    (hfind : (sortByScoreDesc (s.tournament_scores.filter (fun d => d.tournamentId == T))).find?
        (fun d => d.userId == u) = none) :
    (((s.tournament_scores ++ [(⟨s.nextTsId, T, u, uname, n⟩ : TSDoc)]).filter
        (fun d => d.tournamentId == T)).map (fun d => d.userId)).Nodup := by
  rw [filter_append_doc T s.tournament_scores _ rfl]
  rw [List.map_append, List.nodup_append]
  refine ⟨hnodup, by simp, ?_⟩
  intro a ha hb
  rcases List.mem_map.mp ha with ⟨x, hx, rfl⟩
  have hxs : x ∈ sortByScoreDesc (s.tournament_scores.filter (fun d => d.tournamentId == T)) :=
    (sortByScoreDesc_perm _).mem_iff.mpr hx
  have hxne := List.find?_eq_none.mp hfind x hxs
  have hb2 : x.userId = u := by simpa using hb
  exact hxne (by simp [hb2])

/-- One submitTournamentScore call with a well-formed payload preserves
store well-formedness, the at-most-50 bound and the one-document-per-user
property for the tournament. -/
theorem submitTS_step_preserves (T u : Oid) (uname : String) (n : Int) (s : Store)
    (hWF : WFts s)
    (hlen : (s.tournament_scores.filter (fun d => d.tournamentId == T)).length ≤ 50)
    (hnodup : ((s.tournament_scores.filter (fun d => d.tournamentId == T)).map
        (fun d => d.userId)).Nodup) :
    WFts (submit_tournament_score ⟨IdIn.valid T, IdIn.valid u, some uname, ScoreIn.num n⟩ s).1 ∧
    ((submit_tournament_score ⟨IdIn.valid T, IdIn.valid u, some uname, ScoreIn.num n⟩ s).1.tournament_scores.filter
        (fun d => d.tournamentId == T)).length ≤ 50 ∧
    (((submit_tournament_score ⟨IdIn.valid T, IdIn.valid u, some uname, ScoreIn.num n⟩ s).1.tournament_scores.filter
        (fun d => d.tournamentId == T)).map (fun d => d.userId)).Nodup := by
  cases hfind : (sortByScoreDesc (s.tournament_scores.filter (fun d => d.tournamentId == T))).find?
      (fun d => d.userId == u) with
  | some e =>
      by_cases hlt : e.score < n
      · have hsub : (submit_tournament_score ⟨IdIn.valid T, IdIn.valid u, some uname, ScoreIn.num n⟩ s).1
            = {s with tournament_scores := update_one_score e.id n s.tournament_scores} := by
          simp [submit_tournament_score, parseId, parseScore, hfind, hlt]
        rw [hsub]
        refine ⟨⟨?_, ?_⟩, ?_, ?_⟩
        · show ((update_one_score e.id n s.tournament_scores).map (fun d => d.id)).Nodup
          rw [update_one_score_map_id]
          exact hWF.1
        · show ∀ d ∈ update_one_score e.id n s.tournament_scores, d.id < s.nextTsId
          intro d hd
          obtain ⟨d0, hd0, hid, _, _, _, _⟩ := update_one_score_mem e.id n s.tournament_scores d hd
          rw [hid]
          exact hWF.2 d0 hd0
        · show ((update_one_score e.id n s.tournament_scores).filter
              (fun d => d.tournamentId == T)).length ≤ 50
          rw [update_one_score_filter_len]
          exact hlen
        · show (((update_one_score e.id n s.tournament_scores).filter
              (fun d => d.tournamentId == T)).map (fun d => d.userId)).Nodup
          rw [update_one_score_filter_uids]
          exact hnodup
      · have hsub : (submit_tournament_score ⟨IdIn.valid T, IdIn.valid u, some uname, ScoreIn.num n⟩ s).1 = s := by
          simp [submit_tournament_score, parseId, parseScore, hfind, hlt]
        rw [hsub]
        exact ⟨hWF, hlen, hnodup⟩
  | none =>
      cases hc : (decide ((sortByScoreDesc (s.tournament_scores.filter
            (fun d => d.tournamentId == T))).length < 50) ||
          (match (sortByScoreDesc (s.tournament_scores.filter
              (fun d => d.tournamentId == T))).getLast? with
           | some last => decide (last.score < n)
           | none => false)) with
      | false =>
          have hsub : (submit_tournament_score ⟨IdIn.valid T, IdIn.valid u, some uname, ScoreIn.num n⟩ s).1 = s := by
            simp [submit_tournament_score, parseId, parseScore, hfind, hc]
          rw [hsub]
          exact ⟨hWF, hlen, hnodup⟩
      | true =>
          have hids1 : ((s.tournament_scores ++ [(⟨s.nextTsId, T, u, uname, n⟩ : TSDoc)]).map
              (fun d => d.id)).Nodup :=
            append_ids_nodup s.tournament_scores s.nextTsId hWF.1 hWF.2 _ rfl
          have hsub : (submit_tournament_score ⟨IdIn.valid T, IdIn.valid u, some uname, ScoreIn.num n⟩ s).1
              = {s with
                  tournament_scores := insertAndTrim T ⟨s.nextTsId, T, u, uname, n⟩ s.tournament_scores,
                  nextTsId := s.nextTsId + 1} := by
            simp [submit_tournament_score, parseId, parseScore, hfind, hc]
          rw [hsub]
          have hperm := insertAndTrim_perm T ⟨s.nextTsId, T, u, uname, n⟩ s.tournament_scores hids1
          have huid1 := insert_uids_nodup T u uname n s hnodup hfind
          have hsorted_uids : ((sortByScoreDesc ((s.tournament_scores
              ++ [(⟨s.nextTsId, T, u, uname, n⟩ : TSDoc)]).filter
                (fun d => d.tournamentId == T))).map (fun d => d.userId)).Nodup :=
            ((sortByScoreDesc_perm _).map _).nodup_iff.mpr huid1
          have htake_uids : (((sortByScoreDesc ((s.tournament_scores
              ++ [(⟨s.nextTsId, T, u, uname, n⟩ : TSDoc)]).filter
                (fun d => d.tournamentId == T))).take 50).map (fun d => d.userId)).Nodup :=
            (List.Sublist.map _ (List.take_sublist _ _)).nodup hsorted_uids
          refine ⟨⟨?_, ?_⟩, ?_, ?_⟩
          · show ((insertAndTrim T ⟨s.nextTsId, T, u, uname, n⟩ s.tournament_scores).map
                (fun d => d.id)).Nodup
            exact (List.Sublist.map _ (insertAndTrim_sublist T _ _)).nodup hids1
          · show ∀ d ∈ insertAndTrim T ⟨s.nextTsId, T, u, uname, n⟩ s.tournament_scores,
                d.id < s.nextTsId + 1
            intro d hd
            have hd2 := (insertAndTrim_sublist T _ _).subset hd
            rcases List.mem_append.mp hd2 with h | h
            · exact Nat.lt_succ_of_lt (hWF.2 d h)
            · rw [List.mem_singleton.mp h]
              exact Nat.lt_succ_self _
          · show ((insertAndTrim T ⟨s.nextTsId, T, u, uname, n⟩ s.tournament_scores).filter
                (fun d => d.tournamentId == T)).length ≤ 50
            rw [hperm.length_eq]
            exact List.length_take_le _ _
          · show (((insertAndTrim T ⟨s.nextTsId, T, u, uname, n⟩ s.tournament_scores).filter
                (fun d => d.tournamentId == T)).map (fun d => d.userId)).Nodup
            exact (hperm.map _).nodup_iff.mpr htake_uids

/-- Folding a whole submission sequence preserves well-formedness, the
at-most-50 bound and per-user uniqueness. -/
theorem runTS_preserves (T : Oid) :
    ∀ (subs : List (Oid × String × Int)) (s : Store), WFts s →
      (s.tournament_scores.filter (fun d => d.tournamentId == T)).length ≤ 50 →
      ((s.tournament_scores.filter (fun d => d.tournamentId == T)).map (fun d => d.userId)).Nodup →
      WFts (runTS T subs s) ∧
      ((runTS T subs s).tournament_scores.filter (fun d => d.tournamentId == T)).length ≤ 50 ∧
      (((runTS T subs s).tournament_scores.filter (fun d => d.tournamentId == T)).map
          (fun d => d.userId)).Nodup := by
  intro subs
  induction subs with
  | nil => intro s h1 h2 h3; exact ⟨h1, h2, h3⟩
  | cons x xs ih =>
      intro s h1 h2 h3
      obtain ⟨w1, w2, w3⟩ := submitTS_step_preserves T x.1 x.2.1 x.2.2 s h1 h2 h3
      exact ih _ w1 w2 w3

/-- Claim C4: starting from an empty leaderboard, after every prefix of a
submission sequence for a fixed tournament the stored leaderboard has at
most 50 documents and at most one document per userId; and whenever a
submission is answered qualified = false, every score stored at that
moment is at least the rejected score. -/
theorem tournament_sequence_invariant (T : Oid) (subs : List (Oid × String × Int)) (s0 : Store)
    (hWF : WFts s0) (h0 : tsFor T s0 = []) :
    (∀ pre rest, subs = pre ++ rest →
      (tsFor T (runTS T pre s0)).length ≤ 50 ∧
      ((tsFor T (runTS T pre s0)).map (fun d => d.userId)).Nodup) ∧
    (∀ pre x rest, subs = pre ++ x :: rest →
      (submit_tournament_score ⟨IdIn.valid T, IdIn.valid x.1, some x.2.1, ScoreIn.num x.2.2⟩
          (runTS T pre s0)).2
        = Except.ok (Json.obj [("status", Json.bool true), ("qualified", Json.bool false),
            ("approxRank", Json.str ">50")]) →
      ∀ d ∈ tsFor T (runTS T pre s0), x.2.2 ≤ d.score) := by
  simp only [tsFor] at h0 ⊢
  have hbase_len : (s0.tournament_scores.filter (fun d => d.tournamentId == T)).length ≤ 50 := by
    rw [h0]; simp
  have hbase_nodup : ((s0.tournament_scores.filter (fun d => d.tournamentId == T)).map
      (fun d => d.userId)).Nodup := by
    rw [h0]; exact List.nodup_nil
  constructor
  · intro pre rest _
    obtain ⟨_, h2, h3⟩ := runTS_preserves T pre s0 hWF hbase_len hbase_nodup
    exact ⟨h2, h3⟩
  · intro pre x rest _ hresp d hd
    cases hfind : (sortByScoreDesc ((runTS T pre s0).tournament_scores.filter
        (fun d2 => d2.tournamentId == T))).find? (fun d2 => d2.userId == x.1) with
    | some e =>
        by_cases hlt : e.score < x.2.2
        · have h2 : (submit_tournament_score ⟨IdIn.valid T, IdIn.valid x.1, some x.2.1,
              ScoreIn.num x.2.2⟩ (runTS T pre s0)).2
              = Except.ok (Json.obj [("status", Json.bool true)]) := by
            simp [submit_tournament_score, parseId, parseScore, hfind, hlt]
          rw [h2] at hresp
          simp at hresp
        · have h2 : (submit_tournament_score ⟨IdIn.valid T, IdIn.valid x.1, some x.2.1,
              ScoreIn.num x.2.2⟩ (runTS T pre s0)).2
              = Except.ok (Json.obj [("status", Json.bool true)]) := by
            simp [submit_tournament_score, parseId, parseScore, hfind, hlt]
          rw [h2] at hresp
          simp at hresp
    | none =>
        cases hc : (decide ((sortByScoreDesc ((runTS T pre s0).tournament_scores.filter
              (fun d2 => d2.tournamentId == T))).length < 50) ||
            (match (sortByScoreDesc ((runTS T pre s0).tournament_scores.filter
                (fun d2 => d2.tournamentId == T))).getLast? with
             | some last => decide (last.score < x.2.2)
             | none => false)) with
        | true =>
            have h2 : (submit_tournament_score ⟨IdIn.valid T, IdIn.valid x.1, some x.2.1,
                ScoreIn.num x.2.2⟩ (runTS T pre s0)).2
                = Except.ok (Json.obj [("status", Json.bool true), ("qualified", Json.bool true)]) := by
              simp [submit_tournament_score, parseId, parseScore, hfind, hc]
            rw [h2] at hresp
            simp at hresp
        | false =>
            rw [Bool.or_eq_false_iff] at hc
            obtain ⟨hc1, hc2⟩ := hc
            rw [decide_eq_false_iff_not] at hc1
            cases hgl : (sortByScoreDesc ((runTS T pre s0).tournament_scores.filter
                (fun d2 => d2.tournamentId == T))).getLast? with
            | none =>
                have hnil := List.getLast?_eq_none_iff.mp hgl
                exact absurd (by rw [hnil]; decide) hc1
            | some z =>
                simp only [hgl] at hc2
                rw [decide_eq_false_iff_not] at hc2
                have h1 : z.score ≤ d.score :=
                  sorted_getLast?_le (sortByScoreDesc_sorted _) hgl d
                    ((sortByScoreDesc_perm _).mem_iff.mpr hd)
                omega

/-- Concrete instantiation of tournament_sequence_invariant: two
submissions for tournament 9 from the empty store. -/
theorem tournament_sequence_invariant_wit :
    (∀ pre rest, ([(1, "a", 5), (2, "b", 7)] : List (Oid × String × Int)) = pre ++ rest →
      (tsFor 9 (runTS 9 pre emptyStore)).length ≤ 50 ∧
      ((tsFor 9 (runTS 9 pre emptyStore)).map (fun d => d.userId)).Nodup) ∧
    (∀ pre x rest, ([(1, "a", 5), (2, "b", 7)] : List (Oid × String × Int)) = pre ++ x :: rest →
      (submit_tournament_score ⟨IdIn.valid 9, IdIn.valid x.1, some x.2.1, ScoreIn.num x.2.2⟩
          (runTS 9 pre emptyStore)).2
        = Except.ok (Json.obj [("status", Json.bool true), ("qualified", Json.bool false),
            ("approxRank", Json.str ">50")]) →
      ∀ d ∈ tsFor 9 (runTS 9 pre emptyStore), x.2.2 ≤ d.score) :=
  tournament_sequence_invariant 9 [(1, "a", 5), (2, "b", 7)] emptyStore
    ⟨List.nodup_nil, fun d hd => absurd hd (List.not_mem_nil d)⟩ rfl
